import Mathlib

/-!
Verification development for the DAOS server-side erasure-coded (EC) object
aggregation engine (`src/object/srv_ec_aggregate.c`).  The definitions below
are a shallow embedding of the per-stripe reconciliation state machine:
stripe assembly, carry-over, the stripe classifier and the resulting local
and peer effects.  Record indexes, record counts and epochs are modelled as
`Nat` (they are `uint64_t` in the source; none of the modelled computations
relies on wrap-around for the in-range inputs considered here).
-/

namespace EcAgg

/-- A record extent (`daos_recx_t`): starting record index and record count. -/
structure Recx where
  rx_idx : Nat
  rx_nr : Nat
deriving DecidableEq, Repr

/-- `DAOS_RECX_END(recx)`: one past the last record index of the extent. -/
def daos_recx_end (r : Recx) : Nat :=
  r.rx_idx + r.rx_nr

/-- Modelled from the spec: `PARITY_INDICATOR` (the spec's `PARITY_FLAG`) is
the high-bit sentinel of the 64-bit recx index space; its definition lives in
an object-layout header that is not under `src/`. -/
def PARITY_INDICATOR : Nat := 2 ^ 63

/-- `EC_AGE_EPOCH_NO_PARITY`: `~0ULL`, the sentinel parity epoch meaning that
the parity probe found no parity extent for the stripe. -/
def EC_AGE_EPOCH_NO_PARITY : Nat := 2 ^ 64 - 1

/-- A replicated data extent tracked for the current stripe
(`struct ec_agg_extent`): trimmed recx, original recx (for removal),
its epoch, and whether it is a hole. -/
structure AggExtent where
  ae_recx : Recx
  ae_orig_recx : Recx
  ae_epoch : Nat
  ae_hole : Bool
deriving DecidableEq, Repr

/-- The stripe currently undergoing aggregation (`struct ec_agg_stripe`). -/
structure AggStripe where
  as_stripenum : Nat
  as_hi_epoch : Nat
  as_dextents : List AggExtent
  as_hoextents : List AggExtent
  as_stripe_fill : Nat
  as_extent_cnt : Nat
  as_ho_ext_cnt : Nat
  as_offset : Nat
  as_has_holes : Bool
deriving DecidableEq, Repr

/-- The aggregation state for one object (`struct ec_agg_entry`), restricted
to the fields the per-stripe state machine reads: the object-class constants
`K`, `P`, `L` (`e_k`, `e_p`, `e_len`), the shard of the iterated OID, the
current stripe, the parity-probe result, and the ranks of the `P` parity
shards recorded in `ae_peer_pshards`. -/
structure EcAggEntry where
  e_k : Nat
  e_p : Nat
  e_len : Nat
  id_shard : Nat
  ae_cur_stripe : AggStripe
  ape_recx : Recx
  ape_epoch : Nat
  ae_peer_pshards : List Nat
deriving DecidableEq, Repr

/-- Modelled from the spec: `ec_age2ss` returns `obj_ec_stripe_rec_nr(oca)`,
the stripe size in records, which the spec fixes as `K·L` (the macro is in a
header not under `src/`). -/
def ec_age2ss (k len : Nat) : Nat := k * len

/-- `ec_age2pidx`: parity index of this shard, `(shard mod (k+p) - k) mod p`. -/
def ec_age2pidx (ent : EcAggEntry) : Nat :=
  (ent.id_shard % (ent.e_k + ent.e_p) - ent.e_k) % ent.e_p

/-- `ec_age_with_parity`: the parity probe found a parity extent. -/
def ec_age_with_parity (ent : EcAggEntry) : Bool :=
  ent.ape_epoch != EC_AGE_EPOCH_NO_PARITY

/-- `ec_age_parity_higher`: the parity epoch is at least the stripe's
highest replica epoch. -/
def ec_age_parity_higher (ent : EcAggEntry) : Bool :=
  decide (ent.ae_cur_stripe.as_hi_epoch ≤ ent.ape_epoch)

/-- `ec_age_with_hole`: some extent of the current stripe is a hole. -/
def ec_age_with_hole (ent : EcAggEntry) : Bool :=
  ent.ae_cur_stripe.as_has_holes

/-- `ec_age_data_is_newer`: every extent of the current stripe has an epoch
strictly above the parity epoch (the loop returns false on the first extent
whose epoch is `≤` the parity epoch). -/
def ec_age_data_is_newer (ent : EcAggEntry) : Bool :=
  ent.ae_cur_stripe.as_dextents.all fun e => decide (ent.ape_epoch < e.ae_epoch)

/-- `ec_age_stripe_full`: the replicas fill the stripe, and if parity exists
they are all newer than it. -/
def ec_age_stripe_full (ent : EcAggEntry) (has_parity : Bool) : Bool :=
  decide (ent.ae_cur_stripe.as_stripe_fill = ec_age2ss ent.e_k ent.e_len) &&
    (!has_parity || ec_age_data_is_newer ent)

/-- `agg_stripenum`: stripe number containing record index `ex_lo`. -/
def agg_stripenum (k len ex_lo : Nat) : Nat :=
  ex_lo / ec_age2ss k len

/-- `agg_in_stripe`: the portion of `recx` lying inside the stripe that
contains its start. -/
def agg_in_stripe (k len : Nat) (recx : Recx) : Nat :=
  let stripe := recx.rx_idx / (len * k)
  let stripe_end := (stripe + 1) * len * k
  if recx.rx_idx + recx.rx_nr > stripe_end then stripe_end - recx.rx_idx
  else recx.rx_nr

/-- The extent-append part of `agg_data_extent` (lines 1988-2018): the new
extent is appended to the stripe's list; the first extent records the offset
(`rounddown(idx, stripe_size)` is `idx - idx % stripe_size`); a hole sets
`as_has_holes`, a data extent adds its in-stripe portion to
`as_stripe_fill`; `as_hi_epoch` is raised to the extent's epoch. -/
def agg_data_extent_add (k len : Nat) (st : AggStripe) (e : AggExtent) : AggStripe :=
  let st1 : AggStripe :=
    { st with
      as_dextents := st.as_dextents ++ [e]
      as_offset :=
        if st.as_extent_cnt = 0 then e.ae_recx.rx_idx % ec_age2ss k len
        else st.as_offset
      as_extent_cnt := st.as_extent_cnt + 1 }
  let st2 : AggStripe :=
    if e.ae_hole then { st1 with as_has_holes := true }
    else { st1 with as_stripe_fill := st1.as_stripe_fill + agg_in_stripe k len e.ae_recx }
  if st2.as_hi_epoch < e.ae_epoch then { st2 with as_hi_epoch := e.ae_epoch }
  else st2

/-- A freshly reset stripe positioned at stripe number `s`: the state of
`ae_cur_stripe` right after an akey change (`agg_reset_entry`), or after a
carry-over-free `agg_clear_extents` followed by the
`as_stripenum = this_stripenum` assignment of `agg_data_extent`. -/
def agg_stripe_fresh (s : Nat) : AggStripe :=
  { as_stripenum := s
    as_hi_epoch := 0
    as_dextents := []
    as_hoextents := []
    as_stripe_fill := 0
    as_extent_cnt := 0
    as_ho_ext_cnt := 0
    as_offset := 0
    as_has_holes := false }

/-- `agg_carry_over`: the number of records of the extent that spill past the
end of the stripe containing its start (0 when it ends in its own stripe). -/
def agg_carry_over (k len : Nat) (e : AggExtent) : Nat :=
  let stripe_size := ec_age2ss k len
  let start_stripe := e.ae_recx.rx_idx / stripe_size
  let end_stripe := (e.ae_recx.rx_idx + e.ae_recx.rx_nr - 1) / stripe_size
  if start_stripe < end_stripe then daos_recx_end e.ae_recx - end_stripe * stripe_size
  else 0

/-- Loop state of the extent sweep in `agg_clear_extents`. -/
structure ClearAcc where
  ptail : Nat
  carry_is_hole : Bool
  hi_epoch : Nat
  extent_cnt : Nat
  hoex : List AggExtent
deriving DecidableEq, Repr

/-- One iteration of the `agg_clear_extents` sweep (lines 288-320): the
extent's carry-over tail is computed; a crossing extent is trimmed to its
suffix and sets `as_hi_epoch`; the extent count is decremented and the
extent is unlinked from the data list; a tail-free extent whose original
recx reaches past the next stripe start moves to the hold-over list,
otherwise (still tail-free) it is freed.  An extent with a non-zero tail is
unlinked without being added to either list. -/
def agg_clear_step (k len next_stripe_st : Nat) (acc : ClearAcc) (e : AggExtent) :
    ClearAcc :=
  let tail := agg_carry_over k len e
  let carry := acc.carry_is_hole || (e.ae_hole && decide (tail ≠ 0))
  let ptail := if tail ≠ 0 then tail else acc.ptail
  let hi := if tail ≠ 0 then e.ae_epoch else acc.hi_epoch
  let hoex :=
    if daos_recx_end e.ae_orig_recx > next_stripe_st ∧ tail = 0 then
      acc.hoex ++ [e]
    else acc.hoex
  { ptail := ptail
    carry_is_hole := carry
    hi_epoch := hi
    extent_cnt := acc.extent_cnt - 1
    hoex := hoex }

/-- `agg_clear_extents` (lines 271-332): the hold-over list is freed, every
data extent is swept by `agg_clear_step`, and the stripe is re-seeded: with
a carry-over tail the stripe number advances and `as_stripe_fill` becomes
the tail, otherwise the stripe is emptied with `as_hi_epoch = 0`. -/
def agg_clear_extents (k len : Nat) (st : AggStripe) : AggStripe :=
  let next_stripe_st := (st.as_stripenum + 1) * ec_age2ss k len
  let acc := st.as_dextents.foldl (agg_clear_step k len next_stripe_st)
    { ptail := 0
      carry_is_hole := false
      hi_epoch := st.as_hi_epoch
      extent_cnt := st.as_extent_cnt
      hoex := [] }
  { as_stripenum := if acc.ptail ≠ 0 then st.as_stripenum + 1 else st.as_stripenum
    as_hi_epoch := if acc.ptail ≠ 0 then acc.hi_epoch else 0
    as_dextents := []
    as_hoextents := acc.hoex
    as_stripe_fill := acc.ptail
    as_extent_cnt := acc.extent_cnt
    as_ho_ext_cnt := acc.hoex.length
    as_offset := 0
    as_has_holes := acc.carry_is_hole }

/-- The spec's accounting of `as_stripe_fill`: the sum over the stripe's
extents of the non-hole record counts clipped to the stripe. -/
def stripe_fill_sum (k len : Nat) (exts : List AggExtent) : Nat :=
  (exts.map fun e => if e.ae_hole then 0 else agg_in_stripe k len e.ae_recx).sum

/-- An inclusive epoch range (`daos_epoch_range_t`). -/
structure EpochRange where
  epr_lo : Nat
  epr_hi : Nat
deriving DecidableEq, Repr

/-- One `vos_obj_array_remove` call: the removed recx and the bounding
epoch range. -/
structure VosRemove where
  recx : Recx
  epr : EpochRange
deriving DecidableEq, Repr

/-- One `vos_obj_update` call writing a parity cell: the parity recx and the
write epoch. -/
structure ParityWrite where
  recx : Recx
  epoch : Nat
deriving DecidableEq, Repr

/-- One `vos_obj_fetch` call: the fetched recxs and the fetch epoch. -/
structure VosFetch where
  recxs : List Recx
  epoch : Nat
deriving DecidableEq, Repr

/-- `agg_contained`: every data extent's original recx lies within the
current stripe (`[ss, ss + stripe_size]` with `ss = stripe_size ·
stripenum`); the loop returns false on the first extent starting before
`ss` or ending after `ss + stripe_size`. -/
def agg_contained (k len : Nat) (st : AggStripe) : Bool :=
  let ss := ec_age2ss k len * st.as_stripenum
  let se := ss + ec_age2ss k len
  st.as_dextents.all fun e =>
    decide (ss ≤ e.ae_orig_recx.rx_idx) && decide (daos_recx_end e.ae_orig_recx ≤ se)

/-- The persistent-state outcome of `agg_update_vos`. -/
structure VosUpdate where
  parity_write : Option ParityWrite
  removes : List VosRemove
deriving DecidableEq, Repr

/-- `agg_update_vos` (lines 827-905): when `write_parity` is set, the local
parity cell is written at recx `(stripenum · L) | PARITY_INDICATOR` with
length `L` at the stripe's highest epoch.  With no hold-overs and a
contained stripe a single range-remove covers the whole stripe extent,
bounded by the aggregation run's epoch range; otherwise each data extent
whose original recx ends within the stripe is removed individually, bounded
by its own epoch. -/
def agg_update_vos (ap_epr : EpochRange) (ent : EcAggEntry) (write_parity : Bool) :
    VosUpdate :=
  let st := ent.ae_cur_stripe
  let len := ent.e_len
  let pw : Option ParityWrite :=
    if write_parity then
      some { recx := { rx_idx := st.as_stripenum * len ||| PARITY_INDICATOR, rx_nr := len }
             epoch := st.as_hi_epoch }
    else none
  let removes : List VosRemove :=
    if st.as_ho_ext_cnt = 0 ∧ agg_contained ent.e_k len st then
      [{ recx := { rx_idx := st.as_stripenum * ec_age2ss ent.e_k len
                   rx_nr := ec_age2ss ent.e_k len }
         epr := ap_epr }]
    else
      (st.as_dextents.filter fun e =>
          decide (daos_recx_end e.ae_orig_recx ≤ ec_age2ss ent.e_k len * (st.as_stripenum + 1))).map
        fun e => { recx := e.ae_orig_recx, epr := { epr_lo := e.ae_epoch, epr_hi := e.ae_epoch } }
  { parity_write := pw, removes := removes }

/-- `agg_remove_holdovers`: one range-remove per hold-over extent, each over
its original recx bounded by its own epoch. -/
def agg_remove_holdovers (st : AggStripe) : List VosRemove :=
  st.as_hoextents.map fun e =>
    { recx := e.ae_orig_recx, epr := { epr_lo := e.ae_epoch, epr_hi := e.ae_epoch } }

/-- One `DAOS_OBJ_RPC_EC_AGGREGATE` request built by `agg_peer_update_ult`
for one peer parity shard. -/
structure PeerReq where
  peer : Nat
  epr : EpochRange
  stripenum : Nat
  write_parity : Bool
  remove_list : List (Recx × Nat)
deriving DecidableEq, Repr

/-- The removal list shipped to peers when the stripe has hold-overs or is
not contained: the original recx and epoch of every data extent of the
stripe, followed by those of the hold-over extents. -/
def agg_peer_remove_list (k len : Nat) (st : AggStripe) : List (Recx × Nat) :=
  if st.as_ho_ext_cnt ≠ 0 ∨ ¬agg_contained k len st then
    (st.as_dextents.map fun e => (e.ae_orig_recx, e.ae_epoch)) ++
      (st.as_hoextents.map fun e => (e.ae_orig_recx, e.ae_epoch))
  else []

/-- The requests sent by `agg_peer_update_ult` (lines 1327-1482): one per
parity index other than this shard's, with epoch range
`[ap_epr_lo, as_hi_epoch]`, the stripe number, the parity bulk only when
`write_parity`, and the removal list. -/
def agg_peer_update_reqs (ap_epr_lo : Nat) (ent : EcAggEntry) (write_parity : Bool) :
    List PeerReq :=
  (List.range ent.e_p).filterMap fun peer =>
    if peer = ec_age2pidx ent then none
    else
      some { peer := peer
             epr := { epr_lo := ap_epr_lo, epr_hi := ent.ae_cur_stripe.as_hi_epoch }
             stripenum := ent.ae_cur_stripe.as_stripenum
             write_parity := write_parity
             remove_list := agg_peer_remove_list ent.e_k ent.e_len ent.ae_cur_stripe }

/-- `agg_peer_update` (lines 1487-1557): before any request is built, the
failed-target list of the pool map is consulted against the recorded parity
shard locations; if any of them is failed the function returns `-1` and no
RPC is sent.  Otherwise the peer requests are dispatched. -/
def agg_peer_update (failed : List Nat) (ap_epr_lo : Nat) (ent : EcAggEntry)
    (write_parity : Bool) : Int × List PeerReq :=
  if ent.ae_peer_pshards.any fun r => decide (r ∈ failed) then (-1, [])
  else (0, agg_peer_update_reqs ap_epr_lo ent write_parity)

/-- The extent sweep of `agg_process_holes_ult` (lines 1590-1609): extents
at epochs below the parity epoch are skipped; a hole at or above it marks
the stripe as having a valid hole; each gap before a surviving extent
becomes a re-replication recx; the sweep stops once the covered range
reaches the stripe end.  Returns the gap recxs, the valid-hole flag and the
final covered end (stripe-relative). -/
def holes_scan (ape ss klen : Nat) : List AggExtent → Nat → List Recx × Bool × Nat
  | [], last_ext_end => ([], false, last_ext_end)
  | e :: rest, last_ext_end =>
    if e.ae_epoch < ape then holes_scan ape ss klen rest last_ext_end
    else
      let vh := e.ae_hole
      let gap : List Recx :=
        if e.ae_recx.rx_idx - ss > last_ext_end then
          [{ rx_idx := ss + last_ext_end, rx_nr := e.ae_recx.rx_idx - ss - last_ext_end }]
        else []
      let last2 := e.ae_recx.rx_idx + e.ae_recx.rx_nr - ss
      if klen ≤ last2 then (gap, vh, last2)
      else
        let r := holes_scan ape ss klen rest last2
        (gap ++ r.1, vh || r.2.1, r.2.2)

/-- The complete persistent-state outcome of processing one stripe. -/
structure StripeEffects where
  rc : Int := 0
  local_fetch : Option VosFetch := none
  encode_cells : Nat := 0
  parity_write : Option ParityWrite := none
  removes : List VosRemove := []
  ho_removes : List VosRemove := []
  peer_reqs : List PeerReq := []
  hole_write : Option (List Recx × Nat) := none
  hole_parity_remove : Option (Recx × EpochRange) := none
deriving DecidableEq, Repr

/-- The empty outcome: no persistent state is touched. -/
def noEffects : StripeEffects := {}

/-- The local effects of `agg_process_holes` (lines 1560-1816): if the sweep
found a valid hole and produced re-replication recxs, the fetched ranges are
written back as replicas at the stripe's highest epoch and the local parity
extent is range-removed over `[ap_epr_lo, as_hi_epoch]`. -/
def agg_process_holes_model (ap_epr : EpochRange) (ent : EcAggEntry) : StripeEffects :=
  let st := ent.ae_cur_stripe
  let klen := ent.e_k * ent.e_len
  let ss := st.as_stripenum * klen
  let r := holes_scan ent.ape_epoch ss klen st.as_dextents 0
  if !r.2.1 then noEffects
  else
    let recxs :=
      if r.2.2 < klen then r.1 ++ [{ rx_idx := ss + r.2.2, rx_nr := klen - r.2.2 }]
      else r.1
    if recxs.length ≠ 0 then
      { noEffects with
        hole_write := some (recxs, st.as_hi_epoch)
        hole_parity_remove :=
          some ({ rx_idx := st.as_stripenum * ent.e_len ||| PARITY_INDICATOR
                  rx_nr := ent.e_len },
                { epr_lo := ap_epr.epr_lo, epr_hi := st.as_hi_epoch }) }
    else noEffects

/-- The action chosen by the stripe classifier. -/
inductive StripeFate
  | drop
  | fullEncode
  | noop
  | holeFill
  | incrUpdate
deriving DecidableEq, Repr

/-- The branch structure of `agg_process_stripe` (lines 1850-1875): drop
when parity exists at an epoch at least the stripe's highest; full encode
when the replicas form a full stripe (all newer than any parity); nothing
when there is no parity and the stripe is partial; otherwise the hole path
when the stripe has holes, else the partial-stripe path. -/
def agg_classify_stripe (ent : EcAggEntry) : StripeFate :=
  if ec_age_with_parity ent && ec_age_parity_higher ent then .drop
  else if ec_age_stripe_full ent (ec_age_with_parity ent) then .fullEncode
  else if !ec_age_with_parity ent then .noop
  else if ec_age_with_hole ent then .holeFill
  else .incrUpdate

/-- The full-stripe fetch of `agg_fetch_data_stripe` (lines 622-656): the
whole stripe of local data, fetched at the stripe's highest epoch. -/
def agg_fetch_data_stripe (ent : EcAggEntry) : VosFetch :=
  { recxs := [{ rx_idx := ent.ae_cur_stripe.as_stripenum * ent.e_k * ent.e_len
                rx_nr := ent.e_k * ent.e_len }]
    epoch := ent.ae_cur_stripe.as_hi_epoch }

/-- The persistent-state outcome of `agg_process_stripe` (lines 1822-1918),
with the in-memory codec work of the chosen branch assumed successful: the
classifier picks a branch; the hole path performs its own VOS work; the
no-op branch touches nothing; the remaining branches run the peer update
(which aborts the stripe if a recorded parity shard is failed) followed by
the local VOS update, and finally pending hold-overs are removed if
everything so far succeeded. -/
def agg_process_stripe_effects (failed : List Nat) (ap_epr : EpochRange)
    (ent : EcAggEntry) : StripeEffects :=
  let st := ent.ae_cur_stripe
  let fate := agg_classify_stripe ent
  if fate = StripeFate.holeFill then
    let h := agg_process_holes_model ap_epr ent
    if st.as_ho_ext_cnt ≠ 0 then { h with ho_removes := agg_remove_holdovers st }
    else h
  else if fate = StripeFate.noop then
    if st.as_ho_ext_cnt ≠ 0 then
      if 1 < ent.e_p then
        let pu := agg_peer_update failed ap_epr.epr_lo ent false
        if pu.1 = 0 then
          { noEffects with peer_reqs := pu.2, ho_removes := agg_remove_holdovers st }
        else { noEffects with rc := pu.1 }
      else { noEffects with ho_removes := agg_remove_holdovers st }
    else noEffects
  else
    let wp := fate ≠ StripeFate.drop
    let lf := if fate = StripeFate.fullEncode then some (agg_fetch_data_stripe ent) else none
    let ec := if fate = StripeFate.fullEncode then ent.e_p else 0
    if 1 < ent.e_p then
      let pu := agg_peer_update failed ap_epr.epr_lo ent wp
      if pu.1 = 0 then
        let v := agg_update_vos ap_epr ent wp
        { rc := 0
          local_fetch := lf
          encode_cells := ec
          parity_write := v.parity_write
          removes := v.removes
          ho_removes := if st.as_ho_ext_cnt ≠ 0 then agg_remove_holdovers st else []
          peer_reqs := pu.2
          hole_write := none
          hole_parity_remove := none }
      else { noEffects with rc := pu.1, local_fetch := lf, encode_cells := ec }
    else
      let v := agg_update_vos ap_epr ent wp
      { rc := 0
        local_fetch := lf
        encode_cells := ec
        parity_write := v.parity_write
        removes := v.removes
        ho_removes := if st.as_ho_ext_cnt ≠ 0 then agg_remove_holdovers st else []
        peer_reqs := []
        hole_write := none
        hole_parity_remove := none }

/-- The `while (!isset(bit_map, j)) j++` search of `agg_update_parity`:
given the ascending list of set-bit indexes of the cell bit map, the least
set bit at index `j` or above, if any. -/
def nextSetBit (bits : List Nat) (j : Nat) : Option Nat :=
  bits.find? fun m => decide (j ≤ m)

/-- The sequence of cell indexes passed to `ec_encode_data_update` by the
loop of `agg_update_parity` (lines 1120-1135), with `bits` the ascending
list of set-bit indexes of `bit_map`: each of the `cell_cnt` iterations
advances `j` only past unset bits and then uses `j` as the update's cell
index; `j` is left at the bit it just used, so the next iteration's search
starts there. -/
def agg_update_parity_cells (bits : List Nat) : Nat → Nat → List Nat
  | 0, _ => []
  | n + 1, j =>
    match nextSetBit bits j with
    | none => []
    | some j2 => j2 :: agg_update_parity_cells bits n j2

/-- The recalc-or-update decision of `agg_process_partial_stripe`
(line 1265): recalculate when at least half the cells are fully covered by
replica runs, or every cell is touched, or some replica is not newer than
the parity. -/
def agg_partial_recalc (k full_cell_cnt cell_cnt : Nat) (has_old_replicas : Bool) :
    Bool :=
  decide (k / 2 ≤ full_cell_cnt) || decide (cell_cnt = k) || has_old_replicas

/-- The epoch used by `agg_fetch_odata_cells` (lines 604-605) for the
remote fetch of old data cells: the stripe's highest replica epoch for a
recalculation, the parity epoch for an incremental update. -/
def agg_fetch_odata_epoch (ent : EcAggEntry) (is_recalc : Bool) : Nat :=
  if is_recalc then ent.ae_cur_stripe.as_hi_epoch else ent.ape_epoch

/-- The per-iteration credit state of the outer-iterator post-callback. -/
structure AggCredits where
  ap_credits : Nat
  yield_calls : Nat
  rc : Int
deriving DecidableEq, Repr

/-- The credit logic of `agg_iterate_post_cb` (lines 2169-2180): the credit
counter is incremented; once it exceeds `ap_credits_max` it is reset to
zero, the yield callback is invoked, and a true return is reported as the
positive (non-error) result 1. -/
def agg_iterate_post_cb_credit (credits_max : Nat) (yield_abort : Bool)
    (st : AggCredits) : AggCredits :=
  let c := st.ap_credits + 1
  if credits_max < c then
    { ap_credits := 0
      yield_calls := st.yield_calls + 1
      rc := if yield_abort then 1 else 0 }
  else { st with ap_credits := c, rc := 0 }

/-- `EC_AGG_ITERATION_MAX` (line 60), the default `ap_credits_max`. -/
def EC_AGG_ITERATION_MAX : Nat := 256

/-- Modelled from the spec: the concurrency-control "needs refresh" retry
code tested by `obj_dtx_need_refresh` (defined in a header not under
`src/`); its concrete value is irrelevant here. -/
def DER_INPROGRESS : Int := -1015

/-- Modelled from the spec: `obj_dtx_need_refresh` recognises the
distributed-transaction retry code, which restarts the traversal instead of
being demoted. -/
def obj_dtx_need_refresh (rc : Int) : Bool :=
  rc = DER_INPROGRESS

/-- The per-stripe error policy of `agg_data_extent` (lines 1957-1967): a
"needs refresh" result propagates; any other stripe-processing error is
logged and demoted to 0 so that iteration continues. -/
def agg_data_extent_demote (rc : Int) : Int :=
  if obj_dtx_need_refresh rc then rc else 0

/-- The traversal result as a function of the per-stripe processing
results: each stripe result passes through `agg_data_extent_demote`, and
the iteration stops at the first surviving non-zero result. -/
def agg_traversal_rc (stripe_rcs : List Int) : Int :=
  (stripe_rcs.map agg_data_extent_demote).foldl
    (fun acc r => if acc ≠ 0 then acc else r) 0

/-- The watermark update of `ds_obj_ec_aggregate` (lines 2440-2441): the
container's last-aggregated-epoch is set to the range's upper bound exactly
when the traversal returned 0 and `is_current` is set. -/
def ds_obj_ec_aggregate_watermark (old_eph : Nat) (epr : EpochRange) (rc : Int)
    (is_current : Bool) : Nat :=
  if rc = 0 ∧ is_current then epr.epr_hi else old_eph

/-- `n` consecutive invocations of the post-callback credit logic starting
from the zero-initialised `ec_agg_param` state, with a yield callback that
never requests an abort. -/
def agg_post_cb_iterate (credits_max n : Nat) : AggCredits :=
  (List.range n).foldl (fun s _ => agg_iterate_post_cb_credit credits_max false s)
    { ap_credits := 0, yield_calls := 0, rc := 0 }

/-! ## Helper lemmas -/

theorem ec_age_with_parity_eq_true {ent : EcAggEntry}
    (h : ent.ape_epoch ≠ EC_AGE_EPOCH_NO_PARITY) :
    ec_age_with_parity ent = true := by
  simpa [ec_age_with_parity, bne_iff_ne] using h

theorem ec_age_with_parity_eq_false {ent : EcAggEntry}
    (h : ent.ape_epoch = EC_AGE_EPOCH_NO_PARITY) :
    ec_age_with_parity ent = false := by
  simp [ec_age_with_parity, h]

theorem agg_classify_drop {ent : EcAggEntry}
    (hp : ent.ape_epoch ≠ EC_AGE_EPOCH_NO_PARITY)
    (hh : ent.ae_cur_stripe.as_hi_epoch ≤ ent.ape_epoch) :
    agg_classify_stripe ent = StripeFate.drop := by
  simp [agg_classify_stripe, ec_age_with_parity_eq_true hp, ec_age_parity_higher, hh]

theorem agg_classify_noop {ent : EcAggEntry}
    (hp : ent.ape_epoch = EC_AGE_EPOCH_NO_PARITY)
    (hfill : ent.ae_cur_stripe.as_stripe_fill ≠ ec_age2ss ent.e_k ent.e_len) :
    agg_classify_stripe ent = StripeFate.noop := by
  simp [agg_classify_stripe, ec_age_with_parity_eq_false hp, ec_age_stripe_full, hfill]

theorem agg_classify_fullEncode {ent : EcAggEntry}
    (hfill : ent.ae_cur_stripe.as_stripe_fill = ec_age2ss ent.e_k ent.e_len)
    (hnew : ent.ape_epoch = EC_AGE_EPOCH_NO_PARITY ∨
      ∀ e ∈ ent.ae_cur_stripe.as_dextents, ent.ape_epoch < e.ae_epoch)
    (hhi : ∃ e ∈ ent.ae_cur_stripe.as_dextents,
      ent.ae_cur_stripe.as_hi_epoch = e.ae_epoch) :
    agg_classify_stripe ent = StripeFate.fullEncode := by
  rcases hnew with hsent | hnew
  · simp [agg_classify_stripe, ec_age_with_parity_eq_false hsent, ec_age_stripe_full,
      hfill]
  · obtain ⟨e0, he0, hhi0⟩ := hhi
    have hnothigher : ec_age_parity_higher ent = false := by
      have := hnew e0 he0
      simp only [ec_age_parity_higher, decide_eq_false_iff_not, not_le]
      omega
    have hnewer : ec_age_data_is_newer ent = true := by
      simp only [ec_age_data_is_newer, List.all_eq_true, decide_eq_true_eq]
      exact hnew
    simp [agg_classify_stripe, hnothigher, ec_age_stripe_full, hfill, hnewer]

theorem agg_peer_update_check_pass {failed : List Nat} {ent : EcAggEntry}
    (hok : ∀ r ∈ ent.ae_peer_pshards, r ∉ failed) :
    (ent.ae_peer_pshards.any fun r => decide (r ∈ failed)) = false := by
  simp only [List.any_eq_false, decide_eq_true_eq]
  exact hok

theorem agg_peer_update_check_fail {failed : List Nat} {ent : EcAggEntry}
    (hbad : ∃ r ∈ ent.ae_peer_pshards, r ∈ failed) :
    (ent.ae_peer_pshards.any fun r => decide (r ∈ failed)) = true := by
  obtain ⟨r, hr, hrf⟩ := hbad
  simp only [List.any_eq_true, decide_eq_true_eq]
  exact ⟨r, hr, hrf⟩

/-! ## Closed counterexample and evaluation theorems -/

/-- C1: evaluation of the incremental-update loop of `agg_update_parity` at
the failing input.  With the touched-cell bit map `{0, 2}` and
`cell_cnt = 2` (for example K=4, L=4, prior parity at epoch 5, replicas at
epoch 7 covering parts of cells 0 and 2 only), the cell indexes passed to
`ec_encode_data_update` are `[0, 0]`: both XOR diffs are applied with the
coefficients of cell 0 because `j` is never advanced past the bit it has
just used, instead of one incremental update per touched cell `[0, 2]` as
the claim (and the incremental Galois-field update itself) requires. -/
theorem C1_incremental_update_cell_stuck :
    agg_update_parity_cells [0, 2] 2 0 = [0, 0] ∧
      agg_update_parity_cells [0, 2] 2 0 ≠ [0, 2] := by
  constructor <;> decide

/-- C4: evaluation of `agg_clear_extents` at the failing input.  One data
extent `[0, 10)` (epoch 7) of stripe 0 with stripe size `K·L = 2·4 = 8`
crosses into stripe 1.  After the clear, the stripe number advances to 1
and `as_stripe_fill` is the 2-record tail, but `as_dextents` is empty: the
trimmed suffix extent was unlinked from the list without being re-added, so
no data extent seeds stripe 1, contradicting both the claim and the
source's own comment in `agg_carry_over` ("we retain it, ... the carryover
is a valid replica for the next stripe"). -/
theorem C4_carry_over_suffix_dropped :
    agg_clear_extents 2 4
        (agg_data_extent_add 2 4 (agg_stripe_fresh 0)
          { ae_recx := ⟨0, 10⟩, ae_orig_recx := ⟨0, 10⟩, ae_epoch := 7,
            ae_hole := false }) =
      { as_stripenum := 1, as_hi_epoch := 7, as_dextents := [], as_hoextents := [],
        as_stripe_fill := 2, as_extent_cnt := 0, as_ho_ext_cnt := 0, as_offset := 0,
        as_has_holes := false } := by
  decide

/-- C5: evaluation at the failing input.  A stripe whose processing fails
with a non-refresh error (returning -1, e.g. a failed peer parity target)
is demoted to 0 by `agg_data_extent`, so the traversal result is 0 and
`ds_obj_ec_aggregate` advances the container watermark from 3 to the upper
bound 10 although a stripe failed — contradicting the claim and the
source's own comment ("Error leaves data covered by replicas vulnerable to
vos delete, so don't advance coordination epoch"). -/
theorem C5_watermark_advances_despite_stripe_failure :
    agg_traversal_rc [-1] = 0 ∧
      ds_obj_ec_aggregate_watermark 3 { epr_lo := 1, epr_hi := 10 }
        (agg_traversal_rc [-1]) true = 10 := by
  constructor <;> decide

/-- C8 counterexample: immediately after `agg_clear_extents` on a stripe
with a carry-over extent (extent `[0, 9)` at epoch 5, stripe size 8), the
current stripe's `as_stripe_fill` is the 1-record tail while its extent
list is empty, so `as_stripe_fill` differs from the sum of the non-hole
record counts of its extents clipped to the stripe: the claimed invariant
does not hold at every point of the traversal. -/
theorem C8_fill_not_sum_after_carry_over :
    (agg_clear_extents 2 4
        (List.foldl (agg_data_extent_add 2 4) (agg_stripe_fresh 0)
          [{ ae_recx := ⟨0, 9⟩, ae_orig_recx := ⟨0, 9⟩, ae_epoch := 5,
             ae_hole := false }])).as_stripe_fill ≠
      stripe_fill_sum 2 4
        (agg_clear_extents 2 4
          (List.foldl (agg_data_extent_add 2 4) (agg_stripe_fresh 0)
            [{ ae_recx := ⟨0, 9⟩, ae_orig_recx := ⟨0, 9⟩, ae_epoch := 5,
               ae_hole := false }])).as_dextents := by
  decide

/-- C9 counterexample: a stripe with no parity and a partial fill, but with
one pending hold-over extent, is not a no-op on persistent state: the
hold-over's original recx is range-removed (K=2, P=1, L=4; stripe 1 holds
extent `[9, 1)` at epoch 7, fill 1 < 8; hold-over original recx `[5, 10)`
at epoch 6 is removed at `[6, 6]`). -/
theorem C9_holdover_removed_in_noop_branch :
    (agg_process_stripe_effects [] { epr_lo := 1, epr_hi := 10 }
        { e_k := 2, e_p := 1, e_len := 4, id_shard := 2
          ae_cur_stripe :=
            { as_stripenum := 1, as_hi_epoch := 7
              as_dextents := [{ ae_recx := ⟨9, 1⟩, ae_orig_recx := ⟨9, 1⟩,
                                ae_epoch := 7, ae_hole := false }]
              as_hoextents := [{ ae_recx := ⟨5, 3⟩, ae_orig_recx := ⟨5, 10⟩,
                                 ae_epoch := 6, ae_hole := false }]
              as_stripe_fill := 1, as_extent_cnt := 1, as_ho_ext_cnt := 1
              as_offset := 1, as_has_holes := false }
          ape_recx := ⟨0, 0⟩
          ape_epoch := EC_AGE_EPOCH_NO_PARITY
          ae_peer_pshards := [3] }).ho_removes ≠ [] := by
  decide

set_option maxRecDepth 100000 in
/-- C10 counterexample: with the default `credits_max` of 256
(`EC_AGG_ITERATION_MAX`) and the credit counter starting at 0, the first
256 post-callback invocations perform no yield at all (the counter must
*exceed* the maximum), refuting "invokes the yield callback once every
credits_max post-callback invocations (default 256)". -/
theorem C10_no_yield_after_256_invocations :
    (agg_post_cb_iterate EC_AGG_ITERATION_MAX 256).yield_calls = 0 ∧
      (agg_post_cb_iterate EC_AGG_ITERATION_MAX 256).ap_credits = 256 := by
  constructor <;> decide

/-! ## More helper lemmas -/

theorem agg_contained_iff (k len : Nat) (st : AggStripe) :
    agg_contained k len st = true ↔
      ∀ e ∈ st.as_dextents,
        ec_age2ss k len * st.as_stripenum ≤ e.ae_orig_recx.rx_idx ∧
          daos_recx_end e.ae_orig_recx ≤
            ec_age2ss k len * st.as_stripenum + ec_age2ss k len := by
  simp [agg_contained, List.all_eq_true]

theorem agg_peer_update_reqs_write_parity (lo : Nat) (ent : EcAggEntry) (wp : Bool) :
    ∀ req ∈ agg_peer_update_reqs lo ent wp, req.write_parity = wp := by
  intro req hreq
  simp only [agg_peer_update_reqs, List.mem_filterMap] at hreq
  obtain ⟨peer, _, hif⟩ := hreq
  by_cases h : peer = ec_age2pidx ent
  · simp [h] at hif
  · simp only [h, if_false, Option.some.injEq] at hif
    rw [← hif]

theorem agg_peer_update_reqs_covers (lo : Nat) (ent : EcAggEntry) (wp : Bool) :
    ∀ peer, peer < ent.e_p → peer ≠ ec_age2pidx ent →
      ∃ req ∈ agg_peer_update_reqs lo ent wp,
        req.peer = peer ∧ req.write_parity = wp ∧
          req.epr = { epr_lo := lo, epr_hi := ent.ae_cur_stripe.as_hi_epoch } ∧
          req.stripenum = ent.ae_cur_stripe.as_stripenum := by
  intro peer hlt hne
  refine ⟨{ peer := peer
            epr := { epr_lo := lo, epr_hi := ent.ae_cur_stripe.as_hi_epoch }
            stripenum := ent.ae_cur_stripe.as_stripenum
            write_parity := wp
            remove_list := agg_peer_remove_list ent.e_k ent.e_len ent.ae_cur_stripe },
    List.mem_filterMap.mpr ⟨peer, List.mem_range.mpr hlt, ?_⟩, rfl, rfl, rfl, rfl⟩
  simp [hne]

/-! ## Claim theorems -/

/-- C6: when a processed stripe's replicas are removed locally by
`agg_update_vos`: if every data extent's original recx lies within the
stripe's record range and there are no hold-over extents, a single
range-remove covering the whole stripe extent, bounded by the run's epoch
range, is issued; otherwise one range-remove per data extent whose original
recx ends within the stripe is issued, each bounded by that extent's own
epoch, and extents ending past the stripe are not removed (they are
filtered out). -/
theorem C6_local_removal_strategy (ap_epr : EpochRange) (ent : EcAggEntry)
    (wp : Bool) :
    ((ent.ae_cur_stripe.as_ho_ext_cnt = 0 ∧
        ∀ e ∈ ent.ae_cur_stripe.as_dextents,
          ec_age2ss ent.e_k ent.e_len * ent.ae_cur_stripe.as_stripenum ≤
              e.ae_orig_recx.rx_idx ∧
            daos_recx_end e.ae_orig_recx ≤
              ec_age2ss ent.e_k ent.e_len * ent.ae_cur_stripe.as_stripenum +
                ec_age2ss ent.e_k ent.e_len) →
      (agg_update_vos ap_epr ent wp).removes =
        [{ recx := { rx_idx := ent.ae_cur_stripe.as_stripenum *
                       ec_age2ss ent.e_k ent.e_len
                     rx_nr := ec_age2ss ent.e_k ent.e_len }
           epr := ap_epr }]) ∧
    ((ent.ae_cur_stripe.as_ho_ext_cnt ≠ 0 ∨
        ¬ ∀ e ∈ ent.ae_cur_stripe.as_dextents,
          ec_age2ss ent.e_k ent.e_len * ent.ae_cur_stripe.as_stripenum ≤
              e.ae_orig_recx.rx_idx ∧
            daos_recx_end e.ae_orig_recx ≤
              ec_age2ss ent.e_k ent.e_len * ent.ae_cur_stripe.as_stripenum +
                ec_age2ss ent.e_k ent.e_len) →
      (agg_update_vos ap_epr ent wp).removes =
        (ent.ae_cur_stripe.as_dextents.filter fun e =>
            decide (daos_recx_end e.ae_orig_recx ≤
              ec_age2ss ent.e_k ent.e_len * (ent.ae_cur_stripe.as_stripenum + 1))).map
          fun e => { recx := e.ae_orig_recx
                     epr := { epr_lo := e.ae_epoch, epr_hi := e.ae_epoch } }) := by
  constructor
  · rintro ⟨h0, hall⟩
    have hc : agg_contained ent.e_k ent.e_len ent.ae_cur_stripe = true :=
      (agg_contained_iff ent.e_k ent.e_len ent.ae_cur_stripe).mpr hall
    simp [agg_update_vos, h0, hc]
  · intro h
    have hnc : ¬ (ent.ae_cur_stripe.as_ho_ext_cnt = 0 ∧
        agg_contained ent.e_k ent.e_len ent.ae_cur_stripe = true) := by
      rcases h with h | h
      · exact fun hc => h hc.1
      · exact fun hc => h ((agg_contained_iff ent.e_k ent.e_len ent.ae_cur_stripe).mp hc.2)
    simp only [agg_update_vos]
    rw [if_neg]
    exact hnc

/-- C6 witness: a contained stripe with no hold-overs gets the single
whole-stripe remove bounded by the run range, while a stripe with an extent
whose original recx crosses the stripe end gets one remove per contained
extent at its own epoch, the crossing extent excluded. -/
theorem C6_local_removal_strategy_witness :
    (agg_update_vos { epr_lo := 1, epr_hi := 10 }
        { e_k := 2, e_p := 1, e_len := 4, id_shard := 2
          ae_cur_stripe :=
            { as_stripenum := 0, as_hi_epoch := 5
              as_dextents := [{ ae_recx := ⟨0, 8⟩, ae_orig_recx := ⟨0, 8⟩,
                                ae_epoch := 5, ae_hole := false }]
              as_hoextents := [], as_stripe_fill := 8, as_extent_cnt := 1
              as_ho_ext_cnt := 0, as_offset := 0, as_has_holes := false }
          ape_recx := ⟨0, 0⟩, ape_epoch := EC_AGE_EPOCH_NO_PARITY
          ae_peer_pshards := [3] } true).removes =
      [{ recx := ⟨0, 8⟩, epr := { epr_lo := 1, epr_hi := 10 } }] ∧
    (agg_update_vos { epr_lo := 1, epr_hi := 10 }
        { e_k := 2, e_p := 1, e_len := 4, id_shard := 2
          ae_cur_stripe :=
            { as_stripenum := 0, as_hi_epoch := 6
              as_dextents := [{ ae_recx := ⟨4, 2⟩, ae_orig_recx := ⟨4, 2⟩,
                                ae_epoch := 5, ae_hole := false },
                              { ae_recx := ⟨6, 2⟩, ae_orig_recx := ⟨6, 4⟩,
                                ae_epoch := 6, ae_hole := false }]
              as_hoextents := [], as_stripe_fill := 4, as_extent_cnt := 2
              as_ho_ext_cnt := 0, as_offset := 4, as_has_holes := false }
          ape_recx := ⟨0, 0⟩, ape_epoch := EC_AGE_EPOCH_NO_PARITY
          ae_peer_pshards := [3] } true).removes =
      [{ recx := ⟨4, 2⟩, epr := { epr_lo := 5, epr_hi := 5 } }] := by
  constructor
  · exact (C6_local_removal_strategy { epr_lo := 1, epr_hi := 10 } _ true).1
      (by decide)
  · exact (C6_local_removal_strategy { epr_lo := 1, epr_hi := 10 } _ true).2
      (by decide)

/-- C7: if any recorded peer parity target of the stripe is in the
failed-targets list, then for every branch that goes through the peer-update
step (drop, full-encode, partial-update) with `P > 1`, the stripe aborts
with the error -1 before any RPC is built, and no local parity write, no
local replica or hold-over removal, and no hole-path write takes place. -/
theorem C7_failed_peer_aborts_stripe (failed : List Nat) (ap_epr : EpochRange)
    (ent : EcAggEntry)
    (hfate : agg_classify_stripe ent = StripeFate.drop ∨
      agg_classify_stripe ent = StripeFate.fullEncode ∨
      agg_classify_stripe ent = StripeFate.incrUpdate)
    (hp : 1 < ent.e_p)
    (hbad : ∃ r ∈ ent.ae_peer_pshards, r ∈ failed) :
    (agg_process_stripe_effects failed ap_epr ent).rc = -1 ∧
      (agg_process_stripe_effects failed ap_epr ent).peer_reqs = [] ∧
      (agg_process_stripe_effects failed ap_epr ent).parity_write = none ∧
      (agg_process_stripe_effects failed ap_epr ent).removes = [] ∧
      (agg_process_stripe_effects failed ap_epr ent).ho_removes = [] ∧
      (agg_process_stripe_effects failed ap_epr ent).hole_write = none ∧
      (agg_process_stripe_effects failed ap_epr ent).hole_parity_remove = none := by
  have hany := agg_peer_update_check_fail hbad
  rcases hfate with h | h | h <;>
    simp [agg_process_stripe_effects, h, hp, agg_peer_update, hany, noEffects]

/-- C7 witness: a drop-classified stripe (parity epoch 9 above the highest
replica epoch 7) with P = 2 and peer rank 6 failed aborts with -1 and
leaves every local effect empty. -/
theorem C7_failed_peer_aborts_stripe_witness :
    (agg_process_stripe_effects [6] { epr_lo := 1, epr_hi := 10 }
        { e_k := 2, e_p := 2, e_len := 4, id_shard := 2
          ae_cur_stripe :=
            { as_stripenum := 1, as_hi_epoch := 7
              as_dextents := [{ ae_recx := ⟨8, 1⟩, ae_orig_recx := ⟨8, 1⟩,
                                ae_epoch := 7, ae_hole := false }]
              as_hoextents := [], as_stripe_fill := 1, as_extent_cnt := 1
              as_ho_ext_cnt := 0, as_offset := 0, as_has_holes := false }
          ape_recx := ⟨0, 0⟩, ape_epoch := 9
          ae_peer_pshards := [5, 6] }).rc = -1 ∧
    (agg_process_stripe_effects [6] { epr_lo := 1, epr_hi := 10 }
        { e_k := 2, e_p := 2, e_len := 4, id_shard := 2
          ae_cur_stripe :=
            { as_stripenum := 1, as_hi_epoch := 7
              as_dextents := [{ ae_recx := ⟨8, 1⟩, ae_orig_recx := ⟨8, 1⟩,
                                ae_epoch := 7, ae_hole := false }]
              as_hoextents := [], as_stripe_fill := 1, as_extent_cnt := 1
              as_ho_ext_cnt := 0, as_offset := 0, as_has_holes := false }
          ape_recx := ⟨0, 0⟩, ape_epoch := 9
          ae_peer_pshards := [5, 6] }).removes = [] := by
  refine ⟨(C7_failed_peer_aborts_stripe [6] _ _ ?_ ?_ ?_).1,
    (C7_failed_peer_aborts_stripe [6] _ _ ?_ ?_ ?_).2.2.2.1⟩ <;>
    first
      | exact Or.inl (by decide)
      | decide

/-- C9 (amended): for a stripe with no parity extent, a partial fill, and no
pending hold-over extents, processing is a no-op on persistent state: no
parity write, no local or peer removal, no hole-path write, and result 0. -/
theorem C9_amended_noop_leaves_state (failed : List Nat) (ap_epr : EpochRange)
    (ent : EcAggEntry)
    (hp : ent.ape_epoch = EC_AGE_EPOCH_NO_PARITY)
    (hfill : ent.ae_cur_stripe.as_stripe_fill < ec_age2ss ent.e_k ent.e_len)
    (hho : ent.ae_cur_stripe.as_ho_ext_cnt = 0) :
    agg_process_stripe_effects failed ap_epr ent = noEffects := by
  have hf := agg_classify_noop hp (Nat.ne_of_lt hfill)
  simp [agg_process_stripe_effects, hf, hho]

/-- C9 witness: the no-op branch at a concrete stripe (no parity, fill 1 of
8, no hold-overs) touches nothing. -/
theorem C9_amended_noop_leaves_state_witness :
    agg_process_stripe_effects [] { epr_lo := 1, epr_hi := 10 }
        { e_k := 2, e_p := 1, e_len := 4, id_shard := 2
          ae_cur_stripe :=
            { as_stripenum := 1, as_hi_epoch := 7
              as_dextents := [{ ae_recx := ⟨9, 1⟩, ae_orig_recx := ⟨9, 1⟩,
                                ae_epoch := 7, ae_hole := false }]
              as_hoextents := [], as_stripe_fill := 1, as_extent_cnt := 1
              as_ho_ext_cnt := 0, as_offset := 1, as_has_holes := false }
          ape_recx := ⟨0, 0⟩, ape_epoch := EC_AGE_EPOCH_NO_PARITY
          ae_peer_pshards := [3] } = noEffects :=
  C9_amended_noop_leaves_state [] { epr_lo := 1, epr_hi := 10 } _
    (by decide) (by decide) (by decide)

/-- C3: for a stripe with a parity extent whose epoch is at least the epoch
of every replica extent (the stripe's recorded highest epoch being attained
by one of them), and with no failed peer target, processing classifies as
drop and removes replicas without writing parity: the local parity write is
absent, the local removes are exactly the write-parity-free removal plan of
`agg_update_vos`, every peer request carries `write_parity = false`, no
hole-path write occurs, and the result is 0. -/
theorem C3_parity_covers_drop (failed : List Nat) (ap_epr : EpochRange)
    (ent : EcAggEntry)
    (hp : ent.ape_epoch ≠ EC_AGE_EPOCH_NO_PARITY)
    (hall : ∀ e ∈ ent.ae_cur_stripe.as_dextents, e.ae_epoch ≤ ent.ape_epoch)
    (hhi : ∃ e ∈ ent.ae_cur_stripe.as_dextents,
      ent.ae_cur_stripe.as_hi_epoch = e.ae_epoch)
    (hok : ∀ r ∈ ent.ae_peer_pshards, r ∉ failed) :
    agg_classify_stripe ent = StripeFate.drop ∧
      (agg_process_stripe_effects failed ap_epr ent).parity_write = none ∧
      (agg_process_stripe_effects failed ap_epr ent).removes =
        (agg_update_vos ap_epr ent false).removes ∧
      (∀ req ∈ (agg_process_stripe_effects failed ap_epr ent).peer_reqs,
        req.write_parity = false) ∧
      (agg_process_stripe_effects failed ap_epr ent).hole_write = none ∧
      (agg_process_stripe_effects failed ap_epr ent).rc = 0 := by
  have hhile : ent.ae_cur_stripe.as_hi_epoch ≤ ent.ape_epoch := by
    obtain ⟨e0, he0, h0⟩ := hhi
    rw [h0]
    exact hall e0 he0
  have hdrop := agg_classify_drop hp hhile
  refine ⟨hdrop, ?_⟩
  by_cases hpp : 1 < ent.e_p
  · simp only [agg_process_stripe_effects, hdrop, hpp, agg_peer_update,
      agg_peer_update_check_pass hok]
    simp [agg_update_vos]
    exact agg_peer_update_reqs_write_parity ap_epr.epr_lo ent false
  · simp only [agg_process_stripe_effects, hdrop, hpp]
    simp [agg_update_vos]

/-- C3 witness: a concrete drop stripe (parity epoch 9, replica epochs ≤ 9,
P = 2, no failed peers) removes without writing parity. -/
theorem C3_parity_covers_drop_witness :
    agg_classify_stripe
        { e_k := 2, e_p := 2, e_len := 4, id_shard := 2
          ae_cur_stripe :=
            { as_stripenum := 1, as_hi_epoch := 7
              as_dextents := [{ ae_recx := ⟨8, 1⟩, ae_orig_recx := ⟨8, 1⟩,
                                ae_epoch := 7, ae_hole := false }]
              as_hoextents := [], as_stripe_fill := 1, as_extent_cnt := 1
              as_ho_ext_cnt := 0, as_offset := 0, as_has_holes := false }
          ape_recx := ⟨0, 0⟩, ape_epoch := 9
          ae_peer_pshards := [5, 6] } = StripeFate.drop ∧
    (agg_process_stripe_effects [] { epr_lo := 1, epr_hi := 10 }
        { e_k := 2, e_p := 2, e_len := 4, id_shard := 2
          ae_cur_stripe :=
            { as_stripenum := 1, as_hi_epoch := 7
              as_dextents := [{ ae_recx := ⟨8, 1⟩, ae_orig_recx := ⟨8, 1⟩,
                                ae_epoch := 7, ae_hole := false }]
              as_hoextents := [], as_stripe_fill := 1, as_extent_cnt := 1
              as_ho_ext_cnt := 0, as_offset := 0, as_has_holes := false }
          ape_recx := ⟨0, 0⟩, ape_epoch := 9
          ae_peer_pshards := [5, 6] }).parity_write = none :=
  ⟨(C3_parity_covers_drop [] { epr_lo := 1, epr_hi := 10 } _
      (by decide) (by decide) (by decide) (by decide)).1,
    (C3_parity_covers_drop [] { epr_lo := 1, epr_hi := 10 } _
      (by decide) (by decide) (by decide) (by decide)).2.1⟩

/-! ## Iteration-credit characterisation (C10) -/

theorem agg_post_cb_iterate_succ (cm n : Nat) :
    agg_post_cb_iterate cm (n + 1) =
      agg_iterate_post_cb_credit cm false (agg_post_cb_iterate cm n) := by
  simp [agg_post_cb_iterate, List.range_succ]

theorem agg_post_cb_iterate_spec (cm n : Nat) :
    agg_post_cb_iterate cm n =
      { ap_credits := n % (cm + 1), yield_calls := n / (cm + 1), rc := 0 } := by
  induction n with
  | zero => simp [agg_post_cb_iterate]
  | succ n ih =>
    rw [agg_post_cb_iterate_succ, ih]
    simp only [agg_iterate_post_cb_credit]
    by_cases h : cm < n % (cm + 1) + 1
    · have hm : n % (cm + 1) = cm := by
        have h2 : n % (cm + 1) < cm + 1 := Nat.mod_lt n (Nat.succ_pos cm)
        omega
      have h3 := Nat.div_add_mod n (cm + 1)
      have hn : n + 1 = (cm + 1) * (n / (cm + 1) + 1) := by
        rw [Nat.mul_succ]
        omega
      have e1 : (n + 1) % (cm + 1) = 0 := by
        rw [hn]
        exact Nat.mul_mod_right _ _
      have e2 : (n + 1) / (cm + 1) = n / (cm + 1) + 1 := by
        rw [hn]
        exact Nat.mul_div_cancel_left _ (Nat.succ_pos cm)
      simp [if_pos h, e1, e2]
    · have hlt : n % (cm + 1) + 1 < cm + 1 := by
        have h2 : n % (cm + 1) < cm + 1 := Nat.mod_lt n (Nat.succ_pos cm)
        omega
      have h3 := Nat.div_add_mod n (cm + 1)
      have e1 : (n + 1) % (cm + 1) = n % (cm + 1) + 1 := by
        conv_lhs => rw [show n + 1 = (cm + 1) * (n / (cm + 1)) + (n % (cm + 1) + 1) by
          omega]
        rw [Nat.mul_add_mod, Nat.mod_eq_of_lt hlt]
      have e2 : (n + 1) / (cm + 1) = n / (cm + 1) := by
        conv_lhs => rw [show n + 1 = (cm + 1) * (n / (cm + 1)) + (n % (cm + 1) + 1) by
          omega]
        rw [Nat.mul_add_div (Nat.succ_pos cm), Nat.div_eq_of_lt hlt, Nat.add_zero]
      simp [if_neg h, e1, e2]

/-- C10 (amended): starting from a zero credit counter, the yield callback
is invoked once every `credits_max + 1` post-callback invocations — after
`n` invocations it has run `n / (credits_max + 1)` times (so with the
default 256 the first yield happens on the 257th invocation, not the
256th), the counter holds `n mod (credits_max + 1)` and is reset to zero at
each yield; when the callback returns true the invocation that tripped the
counter reports the positive result 1 — a soft abort, not an error. -/
theorem C10_amended_yield_period (cm n : Nat) :
    (agg_post_cb_iterate cm n).yield_calls = n / (cm + 1) ∧
      (agg_post_cb_iterate cm n).ap_credits = n % (cm + 1) ∧
      (agg_post_cb_iterate cm n).rc = 0 ∧
      ∀ y : Nat, ∀ r : Int,
        agg_iterate_post_cb_credit cm true
            { ap_credits := cm, yield_calls := y, rc := r } =
          { ap_credits := 0, yield_calls := y + 1, rc := 1 } := by
  refine ⟨?_, ?_, ?_, ?_⟩
  · rw [agg_post_cb_iterate_spec]
  · rw [agg_post_cb_iterate_spec]
  · rw [agg_post_cb_iterate_spec]
  · intro y r
    simp [agg_iterate_post_cb_credit]

/-! ## Stripe-fill accounting (C8) -/

theorem agg_data_extent_add_dextents (k len : Nat) (st : AggStripe) (e : AggExtent) :
    (agg_data_extent_add k len st e).as_dextents = st.as_dextents ++ [e] := by
  simp only [agg_data_extent_add]
  split_ifs <;> rfl

theorem agg_data_extent_add_fill (k len : Nat) (st : AggStripe) (e : AggExtent) :
    (agg_data_extent_add k len st e).as_stripe_fill =
      st.as_stripe_fill + (if e.ae_hole then 0 else agg_in_stripe k len e.ae_recx) := by
  simp only [agg_data_extent_add]
  split_ifs <;> simp

theorem agg_fold_add_spec (k len : Nat) (exts : List AggExtent) :
    ∀ st : AggStripe,
      (List.foldl (agg_data_extent_add k len) st exts).as_dextents =
          st.as_dextents ++ exts ∧
        (List.foldl (agg_data_extent_add k len) st exts).as_stripe_fill =
          st.as_stripe_fill + stripe_fill_sum k len exts := by
  induction exts with
  | nil => intro st; simp [stripe_fill_sum]
  | cons e rest ih =>
    intro st
    have h := ih (agg_data_extent_add k len st e)
    simp only [List.foldl_cons]
    constructor
    · rw [h.1, agg_data_extent_add_dextents]
      simp
    · rw [h.2, agg_data_extent_add_fill]
      simp only [stripe_fill_sum, List.map_cons, List.sum_cons]
      omega

theorem stripe_fill_sum_le_of_sorted (k len s : Nat) (hkl : 0 < len * k) :
    ∀ (exts : List AggExtent) (A : Nat),
      A ≤ (s + 1) * (len * k) →
      List.Pairwise (fun a b => daos_recx_end a.ae_recx ≤ b.ae_recx.rx_idx) exts →
      (∀ e ∈ exts, A ≤ e.ae_recx.rx_idx ∧ e.ae_recx.rx_idx / (len * k) = s) →
      stripe_fill_sum k len exts ≤ (s + 1) * (len * k) - A := by
  intro exts
  induction exts with
  | nil =>
    intro A hA _ _
    simp [stripe_fill_sum]
  | cons e rest ih =>
    intro A hA hpw hmem
    have hpwc := List.pairwise_cons.mp hpw
    obtain ⟨hAe, hdiv⟩ := hmem e (by simp)
    have hidxlt : e.ae_recx.rx_idx < (s + 1) * (len * k) :=
      (Nat.div_lt_iff_lt_mul hkl).mp (by rw [hdiv]; exact Nat.lt_succ_self s)
    have hin : agg_in_stripe k len e.ae_recx =
        if e.ae_recx.rx_idx + e.ae_recx.rx_nr > (s + 1) * (len * k) then
          (s + 1) * (len * k) - e.ae_recx.rx_idx
        else e.ae_recx.rx_nr := by
      simp only [agg_in_stripe, hdiv, Nat.mul_assoc]
    by_cases hh : e.ae_hole
    · have hsum : stripe_fill_sum k len (e :: rest) = stripe_fill_sum k len rest := by
        simp [stripe_fill_sum, hh]
      rw [hsum]
      exact ih A hA hpwc.2 (fun b hb => hmem b (by simp [hb]))
    · have hsum : stripe_fill_sum k len (e :: rest) =
          agg_in_stripe k len e.ae_recx + stripe_fill_sum k len rest := by
        simp [stripe_fill_sum, hh]
      rw [hsum]
      by_cases hend : daos_recx_end e.ae_recx ≤ (s + 1) * (len * k)
      · have hin2 : agg_in_stripe k len e.ae_recx = e.ae_recx.rx_nr := by
          rw [hin, if_neg]
          unfold daos_recx_end at hend
          omega
        have hrest := ih (daos_recx_end e.ae_recx) hend hpwc.2
          (fun b hb => ⟨hpwc.1 b hb, (hmem b (by simp [hb])).2⟩)
        unfold daos_recx_end at hend hrest
        omega
      · cases rest with
        | nil =>
          have hin2 : agg_in_stripe k len e.ae_recx =
              (s + 1) * (len * k) - e.ae_recx.rx_idx := by
            rw [hin, if_pos]
            unfold daos_recx_end at hend
            omega
          have hnil : stripe_fill_sum k len ([] : List AggExtent) = 0 := by
            simp [stripe_fill_sum]
          rw [hin2, hnil]
          omega
        | cons b rb =>
          exfalso
          have hble := hpwc.1 b (by simp)
          have hbmem := hmem b (by simp)
          have hblt : b.ae_recx.rx_idx < (s + 1) * (len * k) :=
            (Nat.div_lt_iff_lt_mul hkl).mp (by rw [hbmem.2]; exact Nat.lt_succ_self s)
          unfold daos_recx_end at hble hend
          omega

/-- C8 (amended): during the assembly of one stripe — a reset stripe state
followed by any sequence of insertions of ascending, pairwise-disjoint
extents all starting in that stripe — `as_stripe_fill` equals the sum of
the non-hole record counts of the stripe's extents clipped to the stripe
(hole extents contribute nothing) and is at most `K·L`.  The invariant does
not extend to the state right after `agg_clear_extents` of a stripe with a
carry-over tail, where `as_stripe_fill` is the tail length while the extent
list is empty. -/
theorem C8_amended_fill_invariant (k len s : Nat) (exts : List AggExtent)
    (hkl : 0 < len * k)
    (hpw : List.Pairwise (fun a b => daos_recx_end a.ae_recx ≤ b.ae_recx.rx_idx) exts)
    (hs : ∀ e ∈ exts, e.ae_recx.rx_idx / (len * k) = s) :
    (List.foldl (agg_data_extent_add k len) (agg_stripe_fresh s) exts).as_dextents =
        exts ∧
      (List.foldl (agg_data_extent_add k len) (agg_stripe_fresh s)
          exts).as_stripe_fill = stripe_fill_sum k len exts ∧
      (List.foldl (agg_data_extent_add k len) (agg_stripe_fresh s)
          exts).as_stripe_fill ≤ ec_age2ss k len := by
  have h := agg_fold_add_spec k len exts (agg_stripe_fresh s)
  have hmem : ∀ e ∈ exts, s * (len * k) ≤ e.ae_recx.rx_idx ∧
      e.ae_recx.rx_idx / (len * k) = s := by
    intro e he
    refine ⟨?_, hs e he⟩
    have hd := Nat.div_mul_le_self e.ae_recx.rx_idx (len * k)
    rw [hs e he] at hd
    exact hd
  have hA : s * (len * k) ≤ (s + 1) * (len * k) :=
    Nat.mul_le_mul_right _ (Nat.le_succ s)
  have hb := stripe_fill_sum_le_of_sorted k len s hkl exts (s * (len * k)) hA hpw hmem
  have heq : (s + 1) * (len * k) - s * (len * k) = len * k := by
    rw [Nat.succ_mul]
    omega
  rw [heq] at hb
  have hss : stripe_fill_sum k len exts ≤ ec_age2ss k len := by
    simpa [ec_age2ss, Nat.mul_comm] using hb
  refine ⟨by simpa [agg_stripe_fresh] using h.1, ?_, ?_⟩
  · simpa [agg_stripe_fresh] using h.2
  · have h2 : (List.foldl (agg_data_extent_add k len) (agg_stripe_fresh s)
        exts).as_stripe_fill = stripe_fill_sum k len exts := by
      simpa [agg_stripe_fresh] using h.2
    rw [h2]
    exact hss

/-- C8 witness: assembling stripe 1 (K=2, L=4) from the disjoint ascending
extents `[8, 2)` and `[12, 4)` gives `as_stripe_fill = 6`, the sum of the
clipped non-hole counts, within the stripe size 8. -/
theorem C8_amended_fill_invariant_witness :
    (List.foldl (agg_data_extent_add 2 4) (agg_stripe_fresh 1)
        [{ ae_recx := ⟨8, 2⟩, ae_orig_recx := ⟨8, 2⟩, ae_epoch := 5,
           ae_hole := false },
         { ae_recx := ⟨12, 4⟩, ae_orig_recx := ⟨12, 4⟩, ae_epoch := 7,
           ae_hole := false }]).as_stripe_fill =
      stripe_fill_sum 2 4
        [{ ae_recx := ⟨8, 2⟩, ae_orig_recx := ⟨8, 2⟩, ae_epoch := 5,
           ae_hole := false },
         { ae_recx := ⟨12, 4⟩, ae_orig_recx := ⟨12, 4⟩, ae_epoch := 7,
           ae_hole := false }] ∧
    (List.foldl (agg_data_extent_add 2 4) (agg_stripe_fresh 1)
        [{ ae_recx := ⟨8, 2⟩, ae_orig_recx := ⟨8, 2⟩, ae_epoch := 5,
           ae_hole := false },
         { ae_recx := ⟨12, 4⟩, ae_orig_recx := ⟨12, 4⟩, ae_epoch := 7,
           ae_hole := false }]).as_stripe_fill ≤ ec_age2ss 2 4 :=
  ⟨(C8_amended_fill_invariant 2 4 1 _ (by decide) (by decide) (by decide)).2.1,
    (C8_amended_fill_invariant 2 4 1 _ (by decide) (by decide) (by decide)).2.2⟩

/-- C2: a stripe whose fill equals `K·L`, with either no parity or every
replica newer than the parity (the recorded highest epoch attained by a
replica), and no failed peer, is classified full-encode: the whole stripe
of local data is fetched at the stripe's highest replica epoch, `P` parity
cells are GF-encoded, the local parity cell is written at recx
`(stripe · L) | PARITY_INDICATOR` with length `L` at that epoch, every peer
parity shard other than this one is shipped a write-parity request for the
stripe, and the stripe's replicas are removed per the `agg_update_vos`
removal plan. -/
theorem C2_full_stripe_encode (failed : List Nat) (ap_epr : EpochRange)
    (ent : EcAggEntry)
    (hfill : ent.ae_cur_stripe.as_stripe_fill = ec_age2ss ent.e_k ent.e_len)
    (hnew : ent.ape_epoch = EC_AGE_EPOCH_NO_PARITY ∨
      ∀ e ∈ ent.ae_cur_stripe.as_dextents, ent.ape_epoch < e.ae_epoch)
    (hhi : ∃ e ∈ ent.ae_cur_stripe.as_dextents,
      ent.ae_cur_stripe.as_hi_epoch = e.ae_epoch)
    (hok : ∀ r ∈ ent.ae_peer_pshards, r ∉ failed) :
    agg_classify_stripe ent = StripeFate.fullEncode ∧
      (agg_process_stripe_effects failed ap_epr ent).rc = 0 ∧
      (agg_process_stripe_effects failed ap_epr ent).local_fetch =
        some { recxs := [{ rx_idx := ent.ae_cur_stripe.as_stripenum * ent.e_k *
                             ent.e_len
                           rx_nr := ent.e_k * ent.e_len }]
               epoch := ent.ae_cur_stripe.as_hi_epoch } ∧
      (agg_process_stripe_effects failed ap_epr ent).encode_cells = ent.e_p ∧
      (agg_process_stripe_effects failed ap_epr ent).parity_write =
        some { recx := { rx_idx := ent.ae_cur_stripe.as_stripenum * ent.e_len |||
                           PARITY_INDICATOR
                         rx_nr := ent.e_len }
               epoch := ent.ae_cur_stripe.as_hi_epoch } ∧
      (agg_process_stripe_effects failed ap_epr ent).removes =
        (agg_update_vos ap_epr ent true).removes ∧
      ∀ peer, peer < ent.e_p → peer ≠ ec_age2pidx ent →
        ∃ req ∈ (agg_process_stripe_effects failed ap_epr ent).peer_reqs,
          req.peer = peer ∧ req.write_parity = true ∧
            req.epr = { epr_lo := ap_epr.epr_lo
                        epr_hi := ent.ae_cur_stripe.as_hi_epoch } ∧
            req.stripenum = ent.ae_cur_stripe.as_stripenum := by
  have hf := agg_classify_fullEncode hfill hnew hhi
  refine ⟨hf, ?_⟩
  by_cases hpp : 1 < ent.e_p
  · have hreqs : (agg_process_stripe_effects failed ap_epr ent).peer_reqs =
        agg_peer_update_reqs ap_epr.epr_lo ent true := by
      simp [agg_process_stripe_effects, hf, hpp, agg_peer_update,
        agg_peer_update_check_pass hok]
    refine ⟨?_, ?_, ?_, ?_, ?_, ?_⟩
    · simp [agg_process_stripe_effects, hf, hpp, agg_peer_update,
        agg_peer_update_check_pass hok]
    · simp [agg_process_stripe_effects, hf, hpp, agg_peer_update,
        agg_peer_update_check_pass hok, agg_fetch_data_stripe]
    · simp [agg_process_stripe_effects, hf, hpp, agg_peer_update,
        agg_peer_update_check_pass hok]
    · simp [agg_process_stripe_effects, hf, hpp, agg_peer_update,
        agg_peer_update_check_pass hok, agg_update_vos]
    · simp [agg_process_stripe_effects, hf, hpp, agg_peer_update,
        agg_peer_update_check_pass hok]
    · intro peer h1 h2
      rw [hreqs]
      exact agg_peer_update_reqs_covers ap_epr.epr_lo ent true peer h1 h2
  · refine ⟨?_, ?_, ?_, ?_, ?_, ?_⟩
    · simp [agg_process_stripe_effects, hf, hpp]
    · simp [agg_process_stripe_effects, hf, hpp, agg_fetch_data_stripe]
    · simp [agg_process_stripe_effects, hf, hpp]
    · simp [agg_process_stripe_effects, hf, hpp, agg_update_vos]
    · simp [agg_process_stripe_effects, hf, hpp]
    · intro peer h1 h2
      exfalso
      have hp1 : ent.e_p = 1 := by omega
      have hz : ec_age2pidx ent = 0 := by
        simp [ec_age2pidx, hp1, Nat.mod_one]
      rw [hz] at h2
      omega

/-- C2 witness: K=2, P=2, L=4, no prior parity, stripe 0 filled by two
full-cell replicas at epochs 7 and 6: full-encode fires and the parity
write targets `PARITY_INDICATOR | 0` with length 4 at epoch 7. -/
theorem C2_full_stripe_encode_witness :
    agg_classify_stripe
        { e_k := 2, e_p := 2, e_len := 4, id_shard := 2
          ae_cur_stripe :=
            { as_stripenum := 0, as_hi_epoch := 7
              as_dextents := [{ ae_recx := ⟨0, 4⟩, ae_orig_recx := ⟨0, 4⟩,
                                ae_epoch := 7, ae_hole := false },
                              { ae_recx := ⟨4, 4⟩, ae_orig_recx := ⟨4, 4⟩,
                                ae_epoch := 6, ae_hole := false }]
              as_hoextents := [], as_stripe_fill := 8, as_extent_cnt := 2
              as_ho_ext_cnt := 0, as_offset := 0, as_has_holes := false }
          ape_recx := ⟨0, 0⟩, ape_epoch := EC_AGE_EPOCH_NO_PARITY
          ae_peer_pshards := [5, 6] } = StripeFate.fullEncode ∧
    (agg_process_stripe_effects [] { epr_lo := 1, epr_hi := 10 }
        { e_k := 2, e_p := 2, e_len := 4, id_shard := 2
          ae_cur_stripe :=
            { as_stripenum := 0, as_hi_epoch := 7
              as_dextents := [{ ae_recx := ⟨0, 4⟩, ae_orig_recx := ⟨0, 4⟩,
                                ae_epoch := 7, ae_hole := false },
                              { ae_recx := ⟨4, 4⟩, ae_orig_recx := ⟨4, 4⟩,
                                ae_epoch := 6, ae_hole := false }]
              as_hoextents := [], as_stripe_fill := 8, as_extent_cnt := 2
              as_ho_ext_cnt := 0, as_offset := 0, as_has_holes := false }
          ape_recx := ⟨0, 0⟩, ape_epoch := EC_AGE_EPOCH_NO_PARITY
          ae_peer_pshards := [5, 6] }).parity_write =
      some { recx := { rx_idx := 0 * 4 ||| PARITY_INDICATOR, rx_nr := 4 }
             epoch := 7 } :=
  ⟨(C2_full_stripe_encode [] { epr_lo := 1, epr_hi := 10 } _
      (by decide) (Or.inl rfl) (by decide) (by decide)).1,
    (C2_full_stripe_encode [] { epr_lo := 1, epr_hi := 10 } _
      (by decide) (Or.inl rfl) (by decide) (by decide)).2.2.2.2.1⟩

end EcAgg
